import Mathlib

/-
  Verification development for the background price-scan orchestrator
  (src/src/app/api/background-scan/route.ts and src/utils/scannerState.ts).

  The TypeScript is embedded shallowly:
  - JS numbers are modelled as rationals (no NaN/Infinity arise in the
    modelled paths); optional fields are Option; JS truthiness is made
    explicit through the truthy* helpers.
  - Date handling (isToday, new Date().toISOString()) is abstracted into
    an environment: a day-equality oracle `isTod : String → Bool` and the
    current timestamp string.
  - The module-level mutable flags (scanInProgress, stopRequested) and the
    concurrent stop request are modelled by threading an explicit tick
    counter through the loops: one tick per processed batch, with the stop
    flag a monotone function of the tick.
  - Async functions that can reject are modelled in Except.
-/

/-- Product record, following the Product interface of the repository
(id, url, desiredPrice required; everything else optional). -/
structure Product where
  id : String
  url : String
  desiredPrice : ℚ
  currentPrice : Option ℚ := none
  mrp : Option ℚ := none
  name : Option String := none
  brand : Option String := none
  imageUrl : Option String := none
  isBelow : Option Bool := none
  lastChecked : Option String := none
  ecommercePlatform : Option String := none
  lastNotifiedPrice : Option ℚ := none
  lastNotifiedDate : Option String := none
  addedAt : Option String := none
  offers : Option (List String) := none
deriving DecidableEq

/-- Result shape of the scrape API (interface ScrapedProductData in route.ts). -/
structure ScrapedProductData where
  productName : String
  brand : Option String
  price : ℚ
  mrp : Option ℚ
  ecommercePlatform : String
deriving DecidableEq

/-- JS truthiness of an optional number: undefined and 0 are falsy. -/
def truthyQ : Option ℚ → Bool
  | some q => decide (q ≠ 0)
  | none => false

/-- JS truthiness of an optional string: undefined and the empty string are falsy. -/
def truthyS : Option String → Bool
  | some s => decide (s ≠ "")
  | none => false

/-- JS truthiness of an optional boolean: undefined is falsy. -/
def truthyB : Option Bool → Bool
  | some b => b
  | none => false

/-- JS `a || b` on optional numbers (used for `scrapedData.mrp || product.mrp`). -/
def jsOrQ (a b : Option ℚ) : Option ℚ := if truthyQ a then a else b

/-- JS `a || undefined` on an optional number (final return of processNotifications). -/
def orUndefQ (a : Option ℚ) : Option ℚ := if truthyQ a then a else none

/-- JS `a || undefined` on an optional string (final return of processNotifications). -/
def orUndefS (a : Option String) : Option String := if truthyS a then a else none

/-- JS `<` on optional numbers: comparisons involving undefined are false. -/
def jsLt : Option ℚ → Option ℚ → Bool
  | some a, some b => decide (a < b)
  | _, _ => false

/-- The source's isToday applied to an optional date string: a missing or
empty string is falsy and rejected up front; otherwise the day-equality
oracle `isTod` decides calendar-day equality with today (route.ts lines
263-282, with Date parsing abstracted into the oracle). -/
def isTodayO (isTod : String → Bool) : Option String → Bool
  | none => false
  | some s => if s = "" then false else isTod s

/-- Record update performed when a notification is successfully dispatched:
lastNotifiedPrice := currentPrice, lastNotifiedDate := today. -/
def notifiedUpdate (p : Product) (today : String) : Product :=
  { p with lastNotifiedPrice := p.currentPrice, lastNotifiedDate := some today }

/-- Final return of processNotifications when no notification was recorded:
it sets lastNotifiedPrice to `product.lastNotifiedPrice || undefined` and likewise
for the date (route.ts lines 403-407). -/
def keepNotified (p : Product) : Product :=
  { p with lastNotifiedPrice := orUndefQ p.lastNotifiedPrice,
           lastNotifiedDate := orUndefS p.lastNotifiedDate }

/-- The Notification Decision Engine (processNotifications, route.ts lines
285-408). `sendOk` is the boolean returned by sendTelegramNotification
(which never throws); the returned Bool records whether a notification
message was dispatched to the notifier. -/
def processNotifications (isTod : String → Bool) (today : String) (sendOk : Bool)
    (product previousProduct : Product) : Product × Bool :=
  if !(truthyS product.name && truthyQ product.currentPrice &&
       decide (product.desiredPrice ≠ 0)) then
    (product, false)
  else if !truthyB product.isBelow then
    ({ product with lastNotifiedPrice := none, lastNotifiedDate := none }, false)
  else
    let isNewDay := !isTodayO isTod product.lastNotifiedDate
    let priceUnchanged := decide (previousProduct.currentPrice = product.currentPrice)
    if priceUnchanged && !isNewDay then
      ({ product with lastNotifiedPrice := previousProduct.lastNotifiedPrice,
                      lastNotifiedDate := previousProduct.lastNotifiedDate }, false)
    else if priceUnchanged && isNewDay then
      if sendOk then (notifiedUpdate product today, true) else (keepNotified product, true)
    else if !truthyS product.lastNotifiedDate ||
            (decide (product.currentPrice ≠ product.lastNotifiedPrice) &&
             !isTodayO isTod product.lastNotifiedDate) then
      if sendOk then (notifiedUpdate product today, true) else (keepNotified product, true)
    else if truthyQ product.lastNotifiedPrice &&
            jsLt product.currentPrice product.lastNotifiedPrice then
      if ((product.lastNotifiedPrice.getD 0 - product.currentPrice.getD 0) /
            product.lastNotifiedPrice.getD 0) * 100 ≥ 1 then
        if sendOk then (notifiedUpdate product today, true) else (keepNotified product, true)
      else (keepNotified product, false)
    else (keepNotified product, false)

/-- Platform test `product.ecommercePlatform?.toLowerCase() === 'amazon'`. -/
def isAmazonPlatform (p : Product) : Bool :=
  match p.ecommercePlatform with
  | some s => s.toLower == "amazon"
  | none => false

/-- Update of a product from a successful scrape (route.ts lines 482-494). -/
def applyScrape (now : String) (product : Product) (d : ScrapedProductData) : Product :=
  { product with
    name := some d.productName
    brand := d.brand
    currentPrice := some d.price
    mrp := jsOrQ d.mrp product.mrp
    isBelow := some (decide (0 < d.price) && decide (d.price ≤ product.desiredPrice))
    lastChecked := some now
    ecommercePlatform := some d.ecommercePlatform
    imageUrl := product.imageUrl }

/-- Amazon guard of route.ts lines 473-479: a scrape that returned a missing
or zero price for an amazon product is treated as the scraper being
blocked. -/
def amazonBlockedScrape (product : Product) (d : ScrapedProductData) : Bool :=
  isAmazonPlatform product && decide (d.price = 0)

/-- The retry loop of processSingleProduct (route.ts lines 457-523), one
list element per remaining attempt index. `stopAt k` is the value of the
module flag stopRequested as read at attempt k; `attempts k` is the outcome
of scrapeProduct at attempt k. The async function can only reject where an
exception escapes a catch, hence the Except codomain. -/
def processAttempts (isTod : String → Bool) (now : String) (sendOk : Bool)
    (stopAt : Nat → Bool) (attempts : Nat → Except String ScrapedProductData)
    (product originalProduct : Product) : List Nat → Except String Product
  | [] => Except.ok { product with lastChecked := some now }
  | k :: rest =>
    if stopAt k then Except.ok product
    else
      match attempts k with
      | Except.ok d =>
        if amazonBlockedScrape product d then Except.ok product
        else Except.ok (processNotifications isTod now sendOk
               (applyScrape now product d) originalProduct).1
      | Except.error _ =>
        if rest.isEmpty then
          if isAmazonPlatform product then Except.ok product
          else Except.ok { product with lastChecked := some now }
        else processAttempts isTod now sendOk stopAt attempts product originalProduct rest

/-- processSingleProduct (route.ts lines 447-530): the early stop check,
then up to maxRetries + 1 = 3 attempts; originalProduct is the spread copy
taken before the loop. -/
def processSingleProduct (isTod : String → Bool) (now : String) (sendOk : Bool)
    (stopAt : Nat → Bool) (attempts : Nat → Except String ScrapedProductData)
    (product : Product) : Except String Product :=
  if stopAt 0 then Except.ok product
  else processAttempts isTod now sendOk stopAt attempts product product [0, 1, 2]

/-- The Promise.allSettled result handling of the orchestrator (route.ts
lines 687-711): a fulfilled promise pushes its value, a rejected promise
pushes the original product of the batch and increments failureCount. -/
def processBatchResults : List Product → List (Except String Product) → List Product × Nat
  | _, [] => ([], 0)
  | [], _ :: _ => ([], 0)
  | b :: bs, r :: rs =>
    let t := processBatchResults bs rs
    match r with
    | Except.ok v => (v :: t.1, t.2)
    | Except.error _ => (b :: t.1, t.2 + 1)

/-- JS Map insertion: an existing key keeps its position and gets the new
value, a new key is appended (semantics of `new Map(...)` and `map.set`). -/
def mapInsert (m : List (String × Product)) (k : String) (v : Product) :
    List (String × Product) :=
  if m.any (fun kv => kv.1 == k) then
    m.map (fun kv => if kv.1 == k then (k, v) else kv)
  else m ++ [(k, v)]

/-- Builds a JS Map (insertion-ordered association list) from a product
list keyed by id, as `new Map(products.map(p => [p.id, p]))` does. -/
def insertAll (m : List (String × Product)) : List Product → List (String × Product)
  | [] => m
  | p :: rest => insertAll (mapInsert m p.id p) rest

/-- Association-list form of `new Map(products.map(p => [p.id, p]))`. -/
def mapOfList (l : List Product) : List (String × Product) := insertAll [] l

/-- First merge loop of saveProducts (route.ts lines 137-148): walk the
current on-disk map; ids also present in the scan map take the scanned
version and are deleted from the scan map, the rest keep the on-disk
version. Returns the pushed products and the remaining scan map. -/
def mergeLoop : List (String × Product) → List (String × Product) →
    List Product × List (String × Product)
  | [], pm => ([], pm)
  | (i, cur) :: rest, pm =>
    match pm.find? (fun kv => kv.1 == i) with
    | some kv =>
      let r := mergeLoop rest (pm.filter (fun kv2 => !(kv2.1 == i)))
      (kv.2 :: r.1, r.2)
    | none =>
      let r := mergeLoop rest pm
      (cur :: r.1, r.2)

/-- The merge-on-save computation of saveProducts (route.ts lines 119-156):
the first loop over the current on-disk contents, then the second loop
appending every product still left in the scan map. -/
def mergeProducts (products currentProducts : List Product) : List Product :=
  let productMap := mapOfList products
  let currentProductMap := mapOfList currentProducts
  let r := mergeLoop currentProductMap productMap
  r.1 ++ r.2.map (fun kv => kv.2)

/-- Concrete product used by witnesses and counterexamples. -/
def sampleProduct (i : String) : Product :=
  { id := i, url := "https://example.com/" ++ i, desiredPrice := 100 }

example : mergeProducts [sampleProduct "x"] [] = [sampleProduct "x"] := rfl

example : mergeProducts [] [sampleProduct "y"] = [sampleProduct "y"] := rfl

/-- Module-level flags of route.ts (lines 24-27). -/
structure ScanFlags where
  scanInProgress : Bool
  stopRequested : Bool
deriving DecidableEq

/-- Environment of one GET run of the background-scan handler. Time is
counted in ticks, one tick per processed batch (the suspension points at
which a concurrent stop request can be observed). -/
structure GetEnv where
  /-- Tick from which a concurrent requestScannerStop has set the stop flag. -/
  stopTime : Option Nat
  /-- Tick at which an exception reaches the top-level catch (none: no exception). -/
  raisesAt : Option Nat
  /-- Fulfilled value of processSingleProduct for each product (see
  psp_never_rejects_allSettled: the promise never rejects). -/
  proc : Product → Product
  /-- Flat product list returned by getAllProducts. -/
  products : List Product
  /-- getScannerState().isScanning as captured at scan start (route.ts line 588). -/
  contAtStart : Bool
  /-- getScannerState().isScanning as re-read when the scheduled timeout fires. -/
  contFresh : Bool

/-- Value of the module flag stopRequested at tick t: its value sr0 at scan
entry, or true once the concurrent stop request of the environment has
happened (requestScannerStop only ever sets the flag). -/
def stopFlag (env : GetEnv) (sr0 : Bool) (t : Nat) : Bool :=
  sr0 || match env.stopTime with
         | some s => decide (s ≤ t)
         | none => false

/-- Batches of BATCH_SIZE = 5 produced by `platformProducts.slice(i, i + BATCH_SIZE)`. -/
def chunks5 : List Product → List (List Product)
  | [] => []
  | a :: b :: c :: d :: e :: rest => [a, b, c, d, e] :: chunks5 rest
  | l => [l]

/-- Batch loop of the orchestrator (route.ts lines 672-721): before each
batch the stop flag is polled and the loop broken if it is set; otherwise
the batch is processed concurrently and its fulfilled results appended.
Returns the accumulated updatedProducts and the tick after the loop. -/
def batchLoop (env : GetEnv) (sr0 : Bool) :
    List (List Product) → Nat → List Product → List Product × Nat
  | [], t, acc => (acc, t)
  | b :: rest, t, acc =>
    if stopFlag env sr0 t then (acc, t)
    else batchLoop env sr0 rest (t + 1) (acc ++ b.map env.proc)

/-- Platform loop of the orchestrator (route.ts lines 661-730): per
platform, poll the stop flag, run the batch loop, then save the updated
products only if some were accumulated and no stop was requested
(line 724). Returns the performed saves and the final tick. -/
def platformLoop (env : GetEnv) (sr0 : Bool) :
    List (String × List Product) → Nat → List (String × List Product) →
    List (String × List Product) × Nat
  | [], t, saves => (saves, t)
  | (pf, prods) :: rest, t, saves =>
    if stopFlag env sr0 t then (saves, t)
    else
      let r := batchLoop env sr0 (chunks5 prods) t []
      let saves2 := if !r.1.isEmpty && !stopFlag env sr0 r.2
                    then saves ++ [(pf, r.1)] else saves
      platformLoop env sr0 rest r.2 saves2

/-- Storage partition key `(product.ecommercePlatform || 'unknown').toLowerCase()`. -/
def platformKey (p : Product) : String :=
  (match p.ecommercePlatform with
   | some s => if s = "" then "unknown" else s
   | none => "unknown").toLower

/-- Insertion into the productsByPlatform record (JS object keys keep
insertion order under Object.entries). -/
def insertGrouped (acc : List (String × List Product)) (k : String) (p : Product) :
    List (String × List Product) :=
  if acc.any (fun kv => kv.1 == k) then
    acc.map (fun kv => if kv.1 == k then (k, kv.2 ++ [p]) else kv)
  else acc ++ [(k, [p])]

/-- Grouping of all products by platform (route.ts lines 643-654). -/
def groupByPlatform (l : List Product) : List (String × List Product) :=
  l.foldl (fun acc p => insertGrouped acc (platformKey p) p) []

/-- Status string of the structured log entry written at the end of a
full pass (route.ts line 736). -/
def scanLogStatus (env : GetEnv) (sr0 : Bool) (pfs : List (String × List Product)) : String :=
  if stopFlag env sr0 (platformLoop env sr0 pfs 0 []).2 then "stopped" else "completed"

/-- Observable outcome of one GET run of the handler. -/
structure GetResult where
  /-- Values of (scanInProgress, stopRequested) once the handler returned. -/
  flags : ScanFlags
  /-- Status of the structured log entry written by this run, if any. -/
  logStatus : Option String
  /-- Whether a follow-up setTimeout was registered (route.ts lines 618, 774). -/
  scheduled : Bool
  /-- Whether the callback of that timeout actually fetched /api/background-scan
  (it re-reads the scanner state first, lines 622-624 and 778-780). -/
  followUpFired : Bool
deriving DecidableEq

/-- The GET handler of route.ts (lines 572-820) at the level of flags,
log status and rescheduling: the already-in-progress early return, the
no-products early return (lines 601-637), the normal pass through the
platform loop with its 'stopped'/'completed' log entry and the flag resets
of lines 770-771, and the top-level catch (lines 797-818) which logs
'error' and resets scanInProgress only (line 813). -/
def runGET (env : GetEnv) (flags0 : ScanFlags) : GetResult :=
  if flags0.scanInProgress then
    { flags := flags0, logStatus := none, scheduled := false, followUpFired := false }
  else
    let sr0 := flags0.stopRequested
    match env.raisesAt with
    | some r =>
      { flags := ⟨false, stopFlag env sr0 r⟩, logStatus := some "error",
        scheduled := false, followUpFired := false }
    | none =>
      if env.products.isEmpty then
        { flags := ⟨false, stopFlag env sr0 0⟩, logStatus := some "completed",
          scheduled := env.contAtStart,
          followUpFired := env.contAtStart && env.contFresh }
      else
        let tEnd := (platformLoop env sr0 (groupByPlatform env.products) 0 []).2
        { flags := ⟨false, false⟩,
          logStatus := some (if stopFlag env sr0 tEnd then "stopped" else "completed"),
          scheduled := env.contAtStart,
          followUpFired := env.contAtStart && env.contFresh }

/-- Six concrete products in one platform partition: two batches of the
batch loop. -/
def prods6 : List Product :=
  [sampleProduct "1", sampleProduct "2", sampleProduct "3",
   sampleProduct "4", sampleProduct "5", sampleProduct "6"]

example :
    (batchLoop { stopTime := some 1, raisesAt := none, proc := fun p => p,
                 products := [], contAtStart := false, contFresh := false }
      false (chunks5 prods6) 0 []).2 = 1 := rfl

theorem mapInsert_mem {m : List (String × Product)} {k : String} {v : Product}
    {kv : String × Product} (h : kv ∈ mapInsert m k v) : kv ∈ m ∨ kv = (k, v) := by
  unfold mapInsert at h
  split at h
  · obtain ⟨kv2, hkv2, hEq⟩ := List.mem_map.mp h
    by_cases hk : kv2.1 == k
    · right; simp [hk] at hEq; exact hEq.symm
    · left; simp [hk] at hEq; exact hEq ▸ hkv2
  · rcases List.mem_append.mp h with h1 | h1
    · exact Or.inl h1
    · right; simpa using h1

theorem insertAll_mem {l : List Product} :
    ∀ {m : List (String × Product)} {kv : String × Product}, kv ∈ insertAll m l →
      kv ∈ m ∨ ∃ p ∈ l, kv = (p.id, p) := by
  induction l with
  | nil => intro m kv h; exact Or.inl h
  | cons p rest ih =>
    intro m kv h
    rcases ih (m := mapInsert m p.id p) h with h1 | h1
    · rcases mapInsert_mem h1 with h2 | h2
      · exact Or.inl h2
      · exact Or.inr ⟨p, List.mem_cons_self p rest, h2⟩
    · obtain ⟨q, hq, hEq⟩ := h1
      exact Or.inr ⟨q, List.mem_cons_of_mem _ hq, hEq⟩

theorem mapOfList_mem {l : List Product} {kv : String × Product}
    (h : kv ∈ mapOfList l) : ∃ p ∈ l, kv = (p.id, p) := by
  rcases insertAll_mem h with h1 | h1
  · simp at h1
  · exact h1

theorem insertAll_of_disjoint {l : List Product} :
    ∀ {m : List (String × Product)},
      (∀ kv ∈ m, kv.1 ∉ l.map Product.id) → (l.map Product.id).Nodup →
      insertAll m l = m ++ l.map (fun p => (p.id, p)) := by
  induction l with
  | nil => intro m _ _; simp [insertAll]
  | cons p rest ih =>
    intro m hdisj hnodup
    have hnotin : m.any (fun kv => kv.1 == p.id) = false := by
      rw [List.any_eq_false]
      intro kv hkv
      simp only [beq_iff_eq]
      have := hdisj kv hkv
      simp only [List.map_cons, List.mem_cons, not_or] at this
      exact this.1
    have hins : mapInsert m p.id p = m ++ [(p.id, p)] := by
      unfold mapInsert
      simp [hnotin]
    simp only [List.map_cons, List.nodup_cons] at hnodup
    have hdisj2 : ∀ kv ∈ m ++ [(p.id, p)], kv.1 ∉ rest.map Product.id := by
      intro kv hkv
      rcases List.mem_append.mp hkv with h1 | h1
      · have := hdisj kv h1
        simp only [List.map_cons, List.mem_cons, not_or] at this
        exact this.2
      · simp at h1
        rw [h1]
        exact hnodup.1
    calc insertAll m (p :: rest)
        = insertAll (mapInsert m p.id p) rest := rfl
      _ = insertAll (m ++ [(p.id, p)]) rest := by rw [hins]
      _ = (m ++ [(p.id, p)]) ++ rest.map (fun q => (q.id, q)) := ih hdisj2 hnodup.2
      _ = m ++ (p :: rest).map (fun q => (q.id, q)) := by simp

theorem mapOfList_of_nodup {l : List Product} (h : (l.map Product.id).Nodup) :
    mapOfList l = l.map (fun p => (p.id, p)) := by
  have := insertAll_of_disjoint (l := l) (m := []) (by intro kv hkv; simp at hkv) h
  simpa [mapOfList] using this

theorem mergeLoop_mem_left {k : String} {v : Product} :
    ∀ {cm pm : List (String × Product)}, (k, v) ∈ cm → (∀ kv ∈ pm, kv.1 ≠ k) →
      v ∈ (mergeLoop cm pm).1 := by
  intro cm
  induction cm with
  | nil => intro pm h _; simp at h
  | cons hd rest ih =>
    intro pm h hpm
    obtain ⟨i, cur⟩ := hd
    rcases List.mem_cons.mp h with h1 | h1
    · have hik : i = k := by
        have := congrArg Prod.fst h1.symm
        simpa using this
      have hcv : cur = v := by
        have := congrArg Prod.snd h1.symm
        simpa using this
      subst hik; subst hcv
      have hfind : pm.find? (fun kv => kv.1 == i) = none := by
        apply List.find?_eq_none.mpr
        intro kv hkv
        simpa using hpm kv hkv
      simp only [mergeLoop, hfind]
      exact List.mem_cons_self _ _
    · simp only [mergeLoop]
      cases hfind : pm.find? (fun kv => kv.1 == i) with
      | some kv =>
        have hpm2 : ∀ kv2 ∈ pm.filter (fun kv2 => !(kv2.1 == i)), kv2.1 ≠ k := by
          intro kv2 hkv2
          exact hpm kv2 (List.mem_of_mem_filter hkv2)
        exact List.mem_cons_of_mem _ (ih h1 hpm2)
      | none =>
        exact List.mem_cons_of_mem _ (ih h1 hpm)

/-- C8: for every save of a platform partition via merge-on-save, every
product present in the partition's current on-disk contents but absent
from the incoming scan result set (added concurrently while the scan ran)
is retained in the merged list written to disk. -/
theorem merge_retains_concurrent_addition
    (products currentProducts : List Product) (y : Product)
    (hnodup : (currentProducts.map Product.id).Nodup)
    (hy : y ∈ currentProducts)
    (habs : ∀ p ∈ products, p.id ≠ y.id) :
    y ∈ mergeProducts products currentProducts := by
  have hcm : (y.id, y) ∈ mapOfList currentProducts := by
    rw [mapOfList_of_nodup hnodup]
    exact List.mem_map.mpr ⟨y, hy, rfl⟩
  have hpm : ∀ kv ∈ mapOfList products, kv.1 ≠ y.id := by
    intro kv hkv
    obtain ⟨p, hp, hEq⟩ := mapOfList_mem hkv
    rw [hEq]
    exact habs p hp
  unfold mergeProducts
  exact List.mem_append_left _ (mergeLoop_mem_left hcm hpm)

/-- C8 witness: a partition holding product b on disk, saved with a scan
result set that only contains product a, retains b. -/
theorem merge_retains_concurrent_addition_witness :
    sampleProduct "b" ∈ mergeProducts [sampleProduct "a"] [sampleProduct "b"] :=
  merge_retains_concurrent_addition [sampleProduct "a"] [sampleProduct "b"]
    (sampleProduct "b") (by decide) (by decide) (by decide)

/-- C1: evaluation of merge-on-save at the failing input. Product x is in
the incoming scan result set but was deleted from the partition while the
scan ran (the current on-disk contents are empty); the merged list written
back to disk nevertheless contains x again, because the second merge loop
of saveProducts (route.ts lines 150-156) appends every product left in the
scan map. This contradicts the stated merge contract (and the comment
"preserving manual deletions" at lines 131-133): the claim requires the
merged list NOT to contain x. -/
theorem merge_reintroduces_deleted :
    mergeProducts [sampleProduct "x"] [] = [sampleProduct "x"] := rfl

theorem keepNotified_eq_self {p : Product} (h1 : truthyQ p.lastNotifiedPrice = true)
    (h2 : truthyS p.lastNotifiedDate = true) : keepNotified p = p := by
  unfold keepNotified orUndefQ orUndefS
  rw [h1, h2]
  simp

theorem processNotifications_preserves_scan_fields (isTod : String → Bool) (today : String)
    (sendOk : Bool) (p q : Product) :
    (processNotifications isTod today sendOk p q).1.currentPrice = p.currentPrice ∧
    (processNotifications isTod today sendOk p q).1.desiredPrice = p.desiredPrice ∧
    (processNotifications isTod today sendOk p q).1.isBelow = p.isBelow := by
  refine ⟨?_, ?_, ?_⟩ <;>
    simp only [processNotifications, notifiedUpdate, keepNotified] <;>
    (repeat' split) <;> rfl

/-- C7: a product whose price is unchanged from the previous scan and whose
lastNotifiedDate is today is a suppression case of the Notification
Decision Engine: no dispatch, notified fields preserved, and a second
application the same calendar day produces the identical output — the
second call is an idempotent no-op. -/
theorem same_day_suppression_idempotent
    (isTod : String → Bool) (today d : String) (sendOk : Bool)
    (product prev : Product) (c : ℚ)
    (hname : truthyS product.name = true)
    (hcp : product.currentPrice = some c) (hc : c ≠ 0)
    (hdes : product.desiredPrice ≠ 0)
    (hbelow : truthyB product.isBelow = true)
    (hlnd : product.lastNotifiedDate = some d) (hdne : d ≠ "")
    (htod : isTod d = true)
    (hprevcp : prev.currentPrice = some c)
    (hlnp : prev.lastNotifiedPrice = product.lastNotifiedPrice)
    (hlndp : prev.lastNotifiedDate = product.lastNotifiedDate) :
    processNotifications isTod today sendOk product prev = (product, false) ∧
    processNotifications isTod today sendOk product product = (product, false) := by
  have htodO : isTodayO isTod product.lastNotifiedDate = true := by
    rw [hlnd]
    simp [isTodayO, hdne, htod]
  have hg : (truthyS product.name && truthyQ product.currentPrice &&
      decide (product.desiredPrice ≠ 0)) = true := by
    rw [hname, hcp]
    simp [truthyQ, hc, hdes]
  constructor
  · have hpu : decide (prev.currentPrice = product.currentPrice) = true := by
      rw [hprevcp, hcp]
      simp
    simp only [processNotifications, hg, hbelow, htodO, hpu, hlnp, hlndp,
      Bool.not_true, Bool.and_false, if_false, Bool.false_eq_true, ite_false,
      Bool.true_and, Bool.and_true, if_true, ite_true]
    rfl
  · have hpu : decide (product.currentPrice = product.currentPrice) = true := by
      simp
    simp only [processNotifications, hg, hbelow, htodO, hpu,
      Bool.not_true, Bool.and_false, if_false, Bool.false_eq_true, ite_false,
      Bool.true_and, Bool.and_true, if_true, ite_true]
    rfl

/-- Concrete product for the C7 witness: below target, already notified
today (day string "D") at the unchanged price 90. -/
def productC7 : Product :=
  { sampleProduct "a" with
    name := some "tracked"
    currentPrice := some 90
    isBelow := some true
    lastNotifiedPrice := some 90
    lastNotifiedDate := some "D" }

/-- Previous-scan record for the C7 witness: same price, same notified fields. -/
def prevC7 : Product :=
  { sampleProduct "a" with
    currentPrice := some 90
    lastNotifiedPrice := some 90
    lastNotifiedDate := some "D" }

/-- C7 witness: the suppression case evaluated at a concrete product. -/
theorem same_day_suppression_idempotent_witness :
    processNotifications (fun s => s == "D") "T2" true productC7 prevC7 = (productC7, false) ∧
    processNotifications (fun s => s == "D") "T2" true productC7 productC7 = (productC7, false) :=
  same_day_suppression_idempotent (fun s => s == "D") "T2" "D" true productC7 prevC7 90
    rfl rfl (by decide) (by decide) rfl rfl (by decide) rfl rfl rfl rfl

/-- C6: for a product already notified today at price p, with the new price
n differing from the previous scan's price, the Notification Decision
Engine dispatches a further-drop notification and updates
lastNotifiedPrice/lastNotifiedDate exactly when (p - n) / p * 100 ≥ 1; a
smaller further drop dispatches nothing and leaves the notified fields
unchanged. -/
theorem further_drop_threshold
    (isTod : String → Bool) (today d : String) (product prev : Product) (p n : ℚ)
    (hname : truthyS product.name = true)
    (hcp : product.currentPrice = some n) (hn : 0 < n)
    (hdes : product.desiredPrice ≠ 0)
    (hbelow : truthyB product.isBelow = true)
    (hlnp : product.lastNotifiedPrice = some p) (hp : 0 < p)
    (hlnd : product.lastNotifiedDate = some d) (hdne : d ≠ "")
    (htod : isTod d = true)
    (hch : prev.currentPrice ≠ some n) :
    (1 ≤ (p - n) / p * 100 →
      processNotifications isTod today true product prev
        = ({ product with lastNotifiedPrice := some n, lastNotifiedDate := some today },
           true)) ∧
    ((p - n) / p * 100 < 1 →
      processNotifications isTod today true product prev = (product, false)) := by
  have htodO : isTodayO isTod product.lastNotifiedDate = true := by
    rw [hlnd]
    simp [isTodayO, hdne, htod]
  have hg : (truthyS product.name && truthyQ product.currentPrice &&
      decide (product.desiredPrice ≠ 0)) = true := by
    rw [hname, hcp]
    simp [truthyQ, hn.ne', hdes]
  have hpu : decide (prev.currentPrice = product.currentPrice) = false := by
    rw [hcp]
    simpa using hch
  have hlnpT : truthyQ product.lastNotifiedPrice = true := by
    rw [hlnp]
    simp [truthyQ, hp.ne']
  have hlndT : truthyS product.lastNotifiedDate = true := by
    rw [hlnd]
    simp [truthyS, hdne]
  have hkeep : keepNotified product = product := keepNotified_eq_self hlnpT hlndT
  have hdrop : ((product.lastNotifiedPrice.getD 0 - product.currentPrice.getD 0) /
      product.lastNotifiedPrice.getD 0) * 100 = (p - n) / p * 100 := by
    rw [hlnp, hcp]
    simp
  constructor
  · intro hge
    have hnp : n < p := by
      by_contra hcon
      push_neg at hcon
      have h1 : (p - n) / p ≤ 0 := div_nonpos_iff.mpr (Or.inr ⟨by linarith, hp.le⟩)
      nlinarith
    have hjs : jsLt product.currentPrice product.lastNotifiedPrice = true := by
      rw [hcp, hlnp]
      simp [jsLt, hnp]
    simp only [processNotifications, hg, hbelow, htodO, hpu, hlnpT, hlndT, hjs, hdrop,
      Bool.not_true, Bool.not_false, Bool.and_true, Bool.true_and, Bool.false_and,
      Bool.and_false, Bool.or_false, Bool.false_or, Bool.false_eq_true, if_false,
      ite_false, if_true, ite_true]
    rw [if_pos (show (p - n) / p * 100 ≥ 1 from hge)]
    simp [notifiedUpdate, hcp]
  · intro hlt
    by_cases hnp : n < p
    · have hjs : jsLt product.currentPrice product.lastNotifiedPrice = true := by
        rw [hcp, hlnp]
        simp [jsLt, hnp]
      simp only [processNotifications, hg, hbelow, htodO, hpu, hlnpT, hlndT, hjs, hdrop,
        Bool.not_true, Bool.not_false, Bool.and_true, Bool.true_and, Bool.false_and,
        Bool.and_false, Bool.or_false, Bool.false_or, Bool.false_eq_true, if_false,
        ite_false, if_true, ite_true]
      rw [if_neg (show ¬ (p - n) / p * 100 ≥ 1 from not_le.mpr hlt)]
      rw [hkeep]
    · have hjs : jsLt product.currentPrice product.lastNotifiedPrice = false := by
        rw [hcp, hlnp]
        simp [jsLt, hnp]
      simp only [processNotifications, hg, hbelow, htodO, hpu, hlnpT, hlndT, hjs, hdrop,
        Bool.not_true, Bool.not_false, Bool.and_true, Bool.true_and, Bool.false_and,
        Bool.and_false, Bool.or_false, Bool.false_or, Bool.false_eq_true, if_false,
        ite_false, if_true, ite_true]
      rw [hkeep]

/-- Concrete product for the C6 witness: already notified today (day string
"D") at price 100, newly scanned price 98. -/
def productC6 : Product :=
  { sampleProduct "a" with
    name := some "tracked"
    currentPrice := some 98
    isBelow := some true
    lastNotifiedPrice := some 100
    lastNotifiedDate := some "D" }

/-- Previous-scan record for the C6 witness (price was 100). -/
def prevC6 : Product :=
  { sampleProduct "a" with
    currentPrice := some 100
    lastNotifiedPrice := some 100
    lastNotifiedDate := some "D" }

/-- C6 witness: a 2 percent further drop (100 to 98) dispatches a
notification and updates the notified fields. -/
theorem further_drop_threshold_witness :
    processNotifications (fun s => s == "D") "T2" true productC6 prevC6
      = ({ productC6 with lastNotifiedPrice := some 98, lastNotifiedDate := some "T2" },
         true) :=
  (further_drop_threshold (fun s => s == "D") "T2" "D" productC6 prevC6 100 98
    rfl rfl (by decide) (by decide) rfl rfl (by decide) rfl (by decide) rfl
    (by decide)).1 (by norm_num)

theorem processAttempts_ok (isTod : String → Bool) (now : String) (sendOk : Bool)
    (stopAt : Nat → Bool) (attempts : Nat → Except String ScrapedProductData) :
    ∀ (l : List Nat) (product orig : Product),
      ∃ u, processAttempts isTod now sendOk stopAt attempts product orig l = Except.ok u := by
  intro l
  induction l with
  | nil => intro product orig; exact ⟨_, rfl⟩
  | cons k rest ih =>
    intro product orig
    simp only [processAttempts]
    split
    · exact ⟨_, rfl⟩
    · split
      · split
        · exact ⟨_, rfl⟩
        · exact ⟨_, rfl⟩
      · split
        · split
          · exact ⟨_, rfl⟩
          · exact ⟨_, rfl⟩
        · exact ih product orig

/-- C10: processSingleProduct always resolves with a Product value and
never rejects — every extraction error, retry exhaustion and
notification-dispatch failure is absorbed into a returned record — so the
rejected-promise branch of the orchestrator's Promise.allSettled handling
(which would push the original product and increment failureCount) is
unreachable: the failure count of processBatchResults over the settled
batch is always 0. -/
theorem psp_never_rejects_allSettled
    (isTod : String → Bool) (now : String) (sendOk : Bool) (stopAt : Nat → Bool)
    (attemptsOf : Product → Nat → Except String ScrapedProductData)
    (batch : List Product) :
    (∀ q : Product, ∃ u,
        processSingleProduct isTod now sendOk stopAt (attemptsOf q) q = Except.ok u) ∧
    ∃ updated, processBatchResults batch
        (batch.map (fun q => processSingleProduct isTod now sendOk stopAt (attemptsOf q) q))
      = (updated, 0) := by
  have hok : ∀ q : Product, ∃ u,
      processSingleProduct isTod now sendOk stopAt (attemptsOf q) q = Except.ok u := by
    intro q
    unfold processSingleProduct
    split
    · exact ⟨_, rfl⟩
    · exact processAttempts_ok isTod now sendOk stopAt (attemptsOf q) [0, 1, 2] q q
  refine ⟨hok, ?_⟩
  induction batch with
  | nil => exact ⟨[], rfl⟩
  | cons b bs ih =>
    obtain ⟨u, hu⟩ := hok b
    obtain ⟨us, hus⟩ := ih
    refine ⟨u :: us, ?_⟩
    simp only [List.map_cons, processBatchResults, hu, hus]

/-- C9: a product whose extraction fails on every retry attempt keeps all
prior fields; the scraper-blocked platform (amazon) keeps lastChecked
unchanged too, every other platform gets lastChecked updated to the
current time. -/
theorem retry_exhaustion_platform_policy
    (isTod : String → Bool) (now : String) (sendOk : Bool)
    (stopAt : Nat → Bool) (attempts : Nat → Except String ScrapedProductData)
    (product : Product)
    (hstop : ∀ k, k < 3 → stopAt k = false)
    (hfail : ∀ k, k < 3 → ∃ e, attempts k = Except.error e) :
    (isAmazonPlatform product = true →
      processSingleProduct isTod now sendOk stopAt attempts product = Except.ok product) ∧
    (isAmazonPlatform product = false →
      processSingleProduct isTod now sendOk stopAt attempts product
        = Except.ok { product with lastChecked := some now }) := by
  obtain ⟨e0, h0⟩ := hfail 0 (by omega)
  obtain ⟨e1, h1⟩ := hfail 1 (by omega)
  obtain ⟨e2, h2⟩ := hfail 2 (by omega)
  have s0 := hstop 0 (by omega)
  have s1 := hstop 1 (by omega)
  have s2 := hstop 2 (by omega)
  constructor <;> intro hA <;>
    simp [processSingleProduct, processAttempts, s0, s1, s2, h0, h1, h2, hA]

/-- Concrete amazon product for the C9 witness. -/
def productC9 : Product :=
  { sampleProduct "a" with ecommercePlatform := some "Amazon" }

/-- C9 witness: an amazon product whose three attempts all fail is returned
unchanged, lastChecked included. -/
theorem retry_exhaustion_platform_policy_witness :
    (isAmazonPlatform productC9 = true →
      processSingleProduct (fun _ => false) "T" true (fun _ => false)
        (fun _ => Except.error "boom") productC9 = Except.ok productC9) ∧
    (isAmazonPlatform productC9 = false →
      processSingleProduct (fun _ => false) "T" true (fun _ => false)
        (fun _ => Except.error "boom") productC9
        = Except.ok { productC9 with lastChecked := some "T" }) :=
  retry_exhaustion_platform_policy (fun _ => false) "T" true (fun _ => false)
    (fun _ => Except.error "boom") productC9
    (fun _ _ => rfl) (fun _ _ => ⟨"boom", rfl⟩)

/-- C5: for every product whose scan attempt succeeds (the scrape returns
data at some attempt k and the amazon blocked-price guard does not fire),
the updated record has currentPrice set to the scraped price and isBelow
recomputed to (currentPrice > 0 AND currentPrice ≤ desiredPrice); in
particular isBelow is never true when currentPrice is absent or zero. -/
theorem isBelow_after_successful_scan
    (isTod : String → Bool) (now : String) (sendOk : Bool)
    (stopAt : Nat → Bool) (attempts : Nat → Except String ScrapedProductData)
    (product : Product) (d : ScrapedProductData) (k : Nat)
    (hk : k < 3)
    (hstop : ∀ j, j ≤ k → stopAt j = false)
    (hprev : ∀ j, j < k → ∃ e, attempts j = Except.error e)
    (hsucc : attempts k = Except.ok d)
    (hblock : amazonBlockedScrape product d = false) :
    ∃ u, processSingleProduct isTod now sendOk stopAt attempts product = Except.ok u ∧
      u.currentPrice = some d.price ∧
      u.desiredPrice = product.desiredPrice ∧
      u.isBelow = some (decide (0 < d.price) && decide (d.price ≤ product.desiredPrice)) ∧
      (u.isBelow = some true → 0 < d.price ∧ u.currentPrice ≠ none ∧ u.currentPrice ≠ some 0) := by
  have hrun : processSingleProduct isTod now sendOk stopAt attempts product
      = Except.ok (processNotifications isTod now sendOk
          (applyScrape now product d) product).1 := by
    interval_cases k
    · have s0 := hstop 0 (by omega)
      simp [processSingleProduct, processAttempts, s0, hsucc, hblock]
    · have s0 := hstop 0 (by omega)
      have s1 := hstop 1 (by omega)
      obtain ⟨e0, h0⟩ := hprev 0 (by omega)
      simp [processSingleProduct, processAttempts, s0, s1, h0, hsucc, hblock]
    · have s0 := hstop 0 (by omega)
      have s1 := hstop 1 (by omega)
      have s2 := hstop 2 (by omega)
      obtain ⟨e0, h0⟩ := hprev 0 (by omega)
      obtain ⟨e1, h1⟩ := hprev 1 (by omega)
      simp [processSingleProduct, processAttempts, s0, s1, s2, h0, h1, hsucc, hblock]
  obtain ⟨hpcp, hpdes, hpbel⟩ := processNotifications_preserves_scan_fields
    isTod now sendOk (applyScrape now product d) product
  refine ⟨_, hrun, ?_, ?_, ?_, ?_⟩
  · rw [hpcp]; rfl
  · rw [hpdes]; rfl
  · rw [hpbel]; rfl
  · intro hbt
    rw [hpbel] at hbt
    have hb : (decide (0 < d.price) && decide (d.price ≤ product.desiredPrice)) = true := by
      have : (applyScrape now product d).isBelow
          = some (decide (0 < d.price) && decide (d.price ≤ product.desiredPrice)) := rfl
      rw [this] at hbt
      exact (Option.some_inj.mp hbt)
    have hpos : 0 < d.price := by
      have hb2 : 0 < d.price ∧ d.price ≤ product.desiredPrice := by simpa using hb
      exact hb2.1
    refine ⟨hpos, ?_, ?_⟩
    · rw [hpcp]
      simp [applyScrape]
    · rw [hpcp]
      have : (applyScrape now product d).currentPrice = some d.price := rfl
      rw [this]
      simp only [ne_eq, Option.some_inj]
      exact fun hEq => absurd hEq (ne_of_gt hpos)

/-- Scrape outcome for the C5 witness. -/
def scrapeC5 : ScrapedProductData where
  productName := "tracked"
  brand := none
  price := 95
  mrp := none
  ecommercePlatform := "Myntra"

/-- C5 witness: a successful first-attempt scan of a concrete product. -/
theorem isBelow_after_successful_scan_witness :
    ∃ u, processSingleProduct (fun _ => false) "T" true (fun _ => false)
        (fun _ => Except.ok scrapeC5) (sampleProduct "a") = Except.ok u ∧
      u.currentPrice = some scrapeC5.price ∧
      u.desiredPrice = (sampleProduct "a").desiredPrice ∧
      u.isBelow = some (decide (0 < scrapeC5.price) &&
        decide (scrapeC5.price ≤ (sampleProduct "a").desiredPrice)) ∧
      (u.isBelow = some true →
        0 < scrapeC5.price ∧ u.currentPrice ≠ none ∧ u.currentPrice ≠ some 0) :=
  isBelow_after_successful_scan (fun _ => false) "T" true (fun _ => false)
    (fun _ => Except.ok scrapeC5) (sampleProduct "a") scrapeC5 0
    (by omega) (fun _ _ => rfl) (fun j hj => absurd hj (Nat.not_lt_zero j)) rfl rfl

theorem stopFlag_mono (env : GetEnv) (sr0 : Bool) {t t2 : Nat} (hle : t ≤ t2)
    (h : stopFlag env sr0 t = true) : stopFlag env sr0 t2 = true := by
  unfold stopFlag at h ⊢
  cases sr0 with
  | true => simp
  | false =>
    simp only [Bool.false_or] at h ⊢
    cases hst : env.stopTime with
    | none => rw [hst] at h; simp at h
    | some s =>
      rw [hst] at h
      simp at h ⊢
      omega

/-- Environment for the C3 counterexample and witness: the stop request
arrives at tick 1, after the first batch of the first platform. -/
def envC3 : GetEnv where
  stopTime := some 1
  raisesAt := none
  proc := fun p => p
  products := []
  contAtStart := false
  contFresh := false

/-- C3 counterexample: with six products in one platform, the stop flag is
observed after the first batch (five products already processed), yet the
platform loop performs NO save at all — the claim that the products
already processed at the time the stop flag is observed are persisted is
false on the code, because route.ts line 724 skips the save when
stopRequested is set. The log status is nevertheless 'stopped'. -/
theorem stop_discards_processed_counterexample :
    (platformLoop envC3 false [("myntra", prods6)] 0 []).1 = [] ∧
    (batchLoop envC3 false (chunks5 prods6) 0 []).1.length = 5 ∧
    scanLogStatus envC3 false [("myntra", prods6)] = "stopped" :=
  ⟨rfl, rfl, rfl⟩

/-- C3 amended: when a stop is requested mid-pass, the platform being
processed when the stop flag is observed is NOT saved (its already
processed products are discarded), platform partitions saved before the
stop remain intact, no further platforms are processed, and the log entry
for the scan has status 'stopped'. -/
theorem scan_stop_amended (env : GetEnv) (sr0 : Bool) :
    (∀ (pf : String) (prods : List Product) (rest : List (String × List Product))
        (t : Nat) (saves : List (String × List Product)),
      stopFlag env sr0 t = false →
      stopFlag env sr0 (batchLoop env sr0 (chunks5 prods) t []).2 = true →
      platformLoop env sr0 ((pf, prods) :: rest) t saves
        = (saves, (batchLoop env sr0 (chunks5 prods) t []).2)) ∧
    (∀ pfs, stopFlag env sr0 (platformLoop env sr0 pfs 0 []).2 = true →
      scanLogStatus env sr0 pfs = "stopped") := by
  constructor
  · intro pf prods rest t saves hnot hstop
    simp only [platformLoop, hnot, Bool.false_eq_true, if_false, hstop,
      Bool.not_true, Bool.and_false, ite_false]
    cases rest with
    | nil => simp [platformLoop]
    | cons hd tl =>
      obtain ⟨pf2, prods2⟩ := hd
      simp [platformLoop, hstop]
  · intro pfs hstop
    unfold scanLogStatus
    rw [hstop]
    simp

/-- C3 witness for the amended theorem: the first platform is entered with
the stop flag still clear, the stop is observed at the batch boundary, and
the run returns exactly the saves accumulated before (the amazon partition
saved earlier), with the in-progress myntra platform unsaved. -/
theorem scan_stop_amended_witness :
    platformLoop envC3 false [("myntra", prods6)] 0 [("amazon", [sampleProduct "z"])]
      = ([("amazon", [sampleProduct "z"])],
         (batchLoop envC3 false (chunks5 prods6) 0 []).2) :=
  (scan_stop_amended envC3 false).1 "myntra" prods6 [] 0
    [("amazon", [sampleProduct "z"])] rfl rfl

/-- Environment for the C2 counterexample: a stop is requested at tick 0
and an exception reaches the top-level catch at tick 1. -/
def envC2 : GetEnv where
  stopTime := some 0
  raisesAt := some 1
  proc := fun p => p
  products := [sampleProduct "a"]
  contAtStart := false
  contFresh := false

/-- C2 counterexample: on the error termination the handler logs status
'error' and resets scanInProgress, but stopRequested is left true (route.ts
line 813 resets only scanInProgress) — so the claim that both flags are
reset on every termination is false on the code. -/
theorem error_path_keeps_stop_flag_counterexample :
    (runGET envC2 ⟨false, false⟩).logStatus = some "error" ∧
    (runGET envC2 ⟨false, false⟩).flags ≠ (⟨false, false⟩ : ScanFlags) ∧
    (runGET envC2 ⟨false, false⟩).flags.stopRequested = true := by
  refine ⟨rfl, ?_, rfl⟩
  decide

/-- C2 amended: on normal or stopped completion of a full pass both flags
are reset to false; on the top-level error path and on the no-products
early return only scanInProgress is reset while stopRequested keeps its
current value; in every termination scanInProgress is false afterward, so
a subsequent call to the scan entry point can start a new scan. -/
theorem scan_flags_reset_amended (env : GetEnv) (flags0 : ScanFlags)
    (h0 : flags0.scanInProgress = false) :
    (runGET env flags0).flags.scanInProgress = false ∧
    (env.raisesAt = none → env.products ≠ [] →
      (runGET env flags0).flags = (⟨false, false⟩ : ScanFlags)) ∧
    (∀ r, env.raisesAt = some r →
      (runGET env flags0).flags.stopRequested = stopFlag env flags0.stopRequested r) ∧
    (env.raisesAt = none → env.products = [] →
      (runGET env flags0).flags.stopRequested = stopFlag env flags0.stopRequested 0) := by
  cases hr : env.raisesAt with
  | some r =>
    simp [runGET, h0, hr]
  | none =>
    cases hp : env.products with
    | nil => simp [runGET, h0, hr, hp]
    | cons a l => simp [runGET, h0, hr, hp]

/-- Environment for the C2 witness: exception at tick 0, entry value of
stopRequested true. -/
def envC2w : GetEnv where
  stopTime := none
  raisesAt := some 0
  proc := fun p => p
  products := [sampleProduct "a"]
  contAtStart := true
  contFresh := true

/-- C2 witness: the amended flag-reset theorem evaluated at a concrete
run entered with stopRequested already true and an exception at tick 0. -/
theorem scan_flags_reset_amended_witness :
    (runGET envC2w ⟨false, true⟩).flags.scanInProgress = false ∧
    (envC2w.raisesAt = none → envC2w.products ≠ [] →
      (runGET envC2w ⟨false, true⟩).flags = (⟨false, false⟩ : ScanFlags)) ∧
    (∀ r, envC2w.raisesAt = some r →
      (runGET envC2w ⟨false, true⟩).flags.stopRequested = stopFlag envC2w true r) ∧
    (envC2w.raisesAt = none → envC2w.products = [] →
      (runGET envC2w ⟨false, true⟩).flags.stopRequested = stopFlag envC2w true 0) :=
  scan_flags_reset_amended envC2w ⟨false, true⟩ rfl

/-- Environment for the C4 counterexample: a stop arrives immediately
(the scan is stopped), continuous mode was enabled at scan start and is
still enabled when the timeout fires. -/
def envC4 : GetEnv where
  stopTime := some 0
  raisesAt := none
  proc := fun p => p
  products := [sampleProduct "a"]
  contAtStart := true
  contFresh := true

/-- C4 counterexample: the scan is logged 'stopped', yet a follow-up is
both scheduled and actually fired — route.ts line 774 consults only the
isContinuousScan value captured at scan start and ignores the stop
request (stopRequested was already reset at line 771) — so the claim
that a follow-up is scheduled iff fresh continuous mode AND the scan was
not stopped is false on the code. -/
theorem reschedule_ignores_stop_counterexample :
    (runGET envC4 ⟨false, false⟩).logStatus = some "stopped" ∧
    (runGET envC4 ⟨false, false⟩).scheduled = true ∧
    (runGET envC4 ⟨false, false⟩).followUpFired = true :=
  ⟨rfl, rfl, rfl⟩

/-- C4 amended: at the end of every scan pass that was not aborted by the
top-level error handler (normal, stopped or no-products), exactly one
follow-up timer is scheduled after the fixed cooldown if and only if
continuous mode as captured at scan start was enabled — a stop request
plays no role — and the scheduled callback actually triggers the follow-up
scan if and only if additionally continuous mode re-read fresh from the
Scanner State Controller is still enabled. -/
theorem reschedule_amended (env : GetEnv) (flags0 : ScanFlags)
    (h0 : flags0.scanInProgress = false) (hr : env.raisesAt = none) :
    (runGET env flags0).scheduled = env.contAtStart ∧
    (runGET env flags0).followUpFired = (env.contAtStart && env.contFresh) := by
  simp only [runGET, h0, Bool.false_eq_true, if_false, hr]
  constructor <;> (split <;> rfl)

/-- Environment for the C4 witness. -/
def envC4w : GetEnv where
  stopTime := none
  raisesAt := none
  proc := fun p => p
  products := []
  contAtStart := true
  contFresh := false

/-- C4 witness: the amended rescheduling theorem evaluated at a concrete
run with continuous mode captured on and fresh off. -/
theorem reschedule_amended_witness :
    (runGET envC4w ⟨false, false⟩).scheduled = envC4w.contAtStart ∧
    (runGET envC4w ⟨false, false⟩).followUpFired
      = (envC4w.contAtStart && envC4w.contFresh) :=
  reschedule_amended envC4w ⟨false, false⟩ rfl rfl
